import Mathlib

/-!
# Verification of the automaker auto-update core

Shallow embedding of the update-check/pull coordination logic of the
`automaker` repository (`apps/server/src/routes/updates/`): the process
executor, the repository-inspection helpers, the URL validator, the
temporary-remote discipline and the check/pull route handlers.

Each external `git` invocation performed through `execAsync` is modelled as
one constructor of the `Cmd` type carrying the interpolated arguments of
the command line built at the call site.  The state of the installation
repository (its remote list, HEAD, fetched upstream tip, working-tree
status) is a `World`; `step` gives the outcome of one command on a world,
mirroring the exit-status/stdout behaviour of the corresponding `git`
command.  A computation of a handler is a `GitM α`:
a function from a world to a result (`Except String α`, errors modelled by
their messages as produced by `getErrorMessage`), the final world, and the
trace of commands issued, in order.  `try`/`catch` of the TypeScript source
is `tryCatchM`; a `catch {}` that ignores the error is `tryIgnore`.
-/

/-- One external process invocation, as issued by the update routes.
Each constructor corresponds to one `execAsync` call site and carries the
values interpolated into that command line. -/
inductive Cmd where
  | gitVersion
  | revParseIsInsideWorkTree
  | revParseHead
  | revParseShortHead
  | statusPorcelain
  | revParseAbbrevRefHead
  | remoteRemove (name : String)
  | remoteAdd (name : String) (url : String)
  | fetchMain (name : String)
  | revParseRemoteMain (name : String)
  | revParseShortRemoteMain (name : String)
  | mergeBaseIsAncestor (a : String) (b : String)
  | mergeFFOnly (name : String)
deriving DecidableEq, Repr

/-- State of the installation repository and of the external environment,
as observable through the commands of `Cmd`.  `ancestor a b` models the
exit status of `git merge-base --is-ancestor a b` (true = exit 0);
`statusResult` is the raw outcome of `git status --porcelain`;
`headCommit`/`upstreamTip` are the stdout payloads of the corresponding
`rev-parse` calls (the code trims them). -/
structure World where
  remotes : List String
  gitAvailable : Bool
  isRepo : Bool
  statusResult : Except String String
  headCommit : String
  headShort : String
  upstreamTip : String
  upstreamTipShort : String
  fetchOk : Bool
  fetchErr : String
  fetched : Bool
  currentBranch : String
  ancestor : String → String → Bool

/-- Removal of a named remote from the remote list (`git remote remove`). -/
def removeRemote (l : List String) (name : String) : List String :=
  l.filter (fun r => r ≠ name)

/-- Outcome of one command on a world: the `Except` mirrors the process
exit status (ok = exit 0 with the given stdout), together with the world
after the command. -/
def step (w : World) : Cmd → Except String String × World
  | Cmd.gitVersion =>
    (if w.gitAvailable then Except.ok "git version 2.43.0"
     else Except.error "git: command not found", w)
  | Cmd.revParseIsInsideWorkTree =>
    (if w.isRepo then Except.ok "true"
     else Except.error "fatal: not a git repository", w)
  | Cmd.revParseHead =>
    (if w.isRepo then Except.ok w.headCommit
     else Except.error "fatal: not a git repository", w)
  | Cmd.revParseShortHead =>
    (if w.isRepo then Except.ok w.headShort
     else Except.error "fatal: not a git repository", w)
  | Cmd.statusPorcelain => (w.statusResult, w)
  | Cmd.revParseAbbrevRefHead =>
    (if w.isRepo then Except.ok w.currentBranch
     else Except.error "fatal: not a git repository", w)
  | Cmd.remoteRemove name =>
    if w.remotes.contains name then
      (Except.ok "", { w with remotes := removeRemote w.remotes name })
    else
      (Except.error ("error: No such remote: " ++ name), w)
  | Cmd.remoteAdd name _url =>
    if w.remotes.contains name then
      (Except.error ("error: remote " ++ name ++ " already exists."), w)
    else
      (Except.ok "", { w with remotes := name :: w.remotes })
  | Cmd.fetchMain name =>
    if w.remotes.contains name then
      (if w.fetchOk then (Except.ok "", { w with fetched := true })
       else (Except.error w.fetchErr, w))
    else
      (Except.error ("fatal: no such remote: " ++ name), w)
  | Cmd.revParseRemoteMain name =>
    (if w.remotes.contains name && w.fetched then Except.ok w.upstreamTip
     else Except.error "fatal: unknown revision", w)
  | Cmd.revParseShortRemoteMain name =>
    (if w.remotes.contains name && w.fetched then Except.ok w.upstreamTipShort
     else Except.error "fatal: unknown revision", w)
  | Cmd.mergeBaseIsAncestor a b =>
    (if w.ancestor a b then Except.ok "" else Except.error "exit status 1", w)
  | Cmd.mergeFFOnly name =>
    if w.remotes.contains name && w.fetched then
      if w.headCommit = w.upstreamTip then
        (Except.ok "Already up to date.", w)
      else if w.ancestor w.upstreamTip w.headCommit then
        (Except.ok "Already up to date.", w)
      else if w.ancestor w.headCommit w.upstreamTip then
        (Except.ok "Fast-forward",
         { w with headCommit := w.upstreamTip, headShort := w.upstreamTipShort })
      else
        (Except.error "fatal: Not possible to fast-forward, aborting.", w)
    else
      (Except.error ("merge: " ++ name ++ "/main - not something we can merge"), w)

/-- A computation of a route handler: from a world, produce a result or an
error message, the final world, and the trace of commands executed. -/
def GitM (α : Type) : Type :=
  World → Except String α × World × List Cmd

def GitM.pure (a : α) : GitM α := fun w => (Except.ok a, w, [])

def GitM.bind (m : GitM α) (f : α → GitM β) : GitM β := fun w =>
  match m w with
  | (Except.error e, w', t) => (Except.error e, w', t)
  | (Except.ok a, w', t) =>
    match f a w' with
    | (r, w'', t') => (r, w'', t ++ t')

instance : Monad GitM where
  pure := GitM.pure
  bind := GitM.bind

@[simp] theorem GitM.bind_eq (m : GitM α) (f : α → GitM β) :
    m >>= f = GitM.bind m f := rfl

@[simp] theorem GitM.pure_eq (a : α) : (Pure.pure a : GitM α) = GitM.pure a := rfl

/-- Model of `await execAsync(...)`: run one command, recording it in the trace. -/
def exec (c : Cmd) : GitM String := fun w =>
  match step w c with
  | (r, w') => (r, w', [c])

/-- Model of `throw e` (a rejected promise carrying message `e`). -/
def throwM (e : String) : GitM α := fun w => (Except.error e, w, [])

/-- Model of `try/catch` with a handler: state and trace changes made by `m`
before the error persist; the handler runs from that state. -/
def tryCatchM (m : GitM α) (h : String → GitM α) : GitM α := fun w =>
  match m w with
  | (Except.error e, w', t) =>
    match h e w' with
    | (r, w'', t') => (r, w'', t ++ t')
  | ok => ok

/-- Model of a `try/catch` that ignores the caught error. -/
def tryIgnore (m : GitM α) : GitM Unit :=
  tryCatchM (GitM.bind m (fun _ => GitM.pure ())) (fun _ => GitM.pure ())

/-! ## String primitives of the host language -/

/-- JavaScript `s.startsWith(p)`: `p` is a prefix of `s`. -/
def strStartsWith (s p : String) : Bool := List.isPrefixOf p.data s.data

/-- JavaScript `s.trim()`: strip leading and trailing whitespace. -/
def trimStr (s : String) : String :=
  String.mk (((s.data.dropWhile Char.isWhitespace).reverse.dropWhile
    Char.isWhitespace).reverse)

/-! ## Repository-inspection helpers (`common.ts`) -/

/-- Source `isGitAvailable` (`common.ts:101-108`). -/
def isGitAvailable : GitM Bool :=
  tryCatchM (GitM.bind (exec Cmd.gitVersion) (fun _ => GitM.pure true))
    (fun _ => GitM.pure false)

/-- Source `isGitRepo` (`common.ts:113-120`). -/
def isGitRepo : GitM Bool :=
  tryCatchM (GitM.bind (exec Cmd.revParseIsInsideWorkTree) (fun _ => GitM.pure true))
    (fun _ => GitM.pure false)

/-- Source `getCurrentCommit` (`common.ts:125-128`). -/
def getCurrentCommit : GitM String :=
  GitM.bind (exec Cmd.revParseHead) (fun out => GitM.pure (trimStr out))

/-- Source `getShortCommit` (`common.ts:133-136`). -/
def getShortCommit : GitM String :=
  GitM.bind (exec Cmd.revParseShortHead) (fun out => GitM.pure (trimStr out))

/-- Source `hasLocalChanges` (`common.ts:141-144`): note the source has no
`try`/`catch` here — a process failure propagates. -/
def hasLocalChanges : GitM Bool :=
  GitM.bind (exec Cmd.statusPorcelain) (fun out => GitM.pure ((trimStr out).length > 0))

/-! ## URL validator (`common.ts:150-162`) -/

/-- The scheme test of `isValidGitUrl`. -/
def startsWithValidProtocol (url : String) : Bool :=
  strStartsWith url "https://" || strStartsWith url "git@" ||
  strStartsWith url "git://" || strStartsWith url "ssh://"

/-- The character class of the regex `/[;`|&<>()$!\\[\] ]/` (the second
entry is the backquote, written via its code point). -/
def shellMetachars : List Char :=
  [';', Char.ofNat 96, '|', '&', '<', '>', '(', ')', '$', '!', '\\', '[', ']', ' ']

/-- Source `hasShellChars`: the regex test of `isValidGitUrl` — some character of
the string lies in the class. -/
def hasShellChars (url : String) : Bool :=
  url.data.any (fun c => shellMetachars.contains c)

/-- Source `isValidGitUrl` (`common.ts:150-162`). -/
def isValidGitUrl (url : String) : Bool :=
  startsWithValidProtocol url && !hasShellChars url

/-- The command line built at `check.ts:69` /
`pull (part_004):79`: `git remote add NAME "URL"` — the URL is
interpolated between double quotes. -/
def remoteAddCommandLine (name url : String) : String :=
  "git remote add " ++ name ++ " \"" ++ url ++ "\""

/-! ## Extended PATH (`common.ts:24-61`) -/

/-- Snapshot of the environment variables that the PATH extension reads. -/
structure EnvSnapshot where
  isWin32 : Bool
  path : Option String
  localAppData : Option String
  programFiles : Option String
  programFilesX86 : Option String
  home : Option String
deriving DecidableEq, Repr

/-- Source `pathSeparator` (`common.ts:24`). -/
def pathSeparator (e : EnvSnapshot) : String := if e.isWin32 then ";" else ":"

/-- Source `additionalPaths` (`common.ts:25-49`): platform-specific known install
directories, each Windows entry pushed only when its variable is defined,
the Unix user-local entry only when HOME is defined. -/
def additionalPaths (e : EnvSnapshot) : List String :=
  if e.isWin32 then
    (match e.localAppData with
     | some v => [v ++ "\\Programs\\Git\\cmd"]
     | none => []) ++
    (match e.programFiles with
     | some v => [v ++ "\\Git\\cmd"]
     | none => []) ++
    (match e.programFilesX86 with
     | some v => [v ++ "\\Git\\cmd"]
     | none => [])
  else
    ["/opt/homebrew/bin", "/usr/local/bin", "/home/linuxbrew/.linuxbrew/bin"] ++
    (match e.home with
     | some h => [h ++ "/.local/bin"]
     | none => [])

/-- JavaScript `Array.prototype.join` on a list of strings. -/
def joinSep (sep : String) : List String → String
  | [] => ""
  | [a] => a
  | a :: b :: rest => a ++ sep ++ joinSep sep (b :: rest)

/-- Source `extendedPath` (`common.ts:51-53`):
`[process.env.PATH, ...additionalPaths.filter(Boolean)].filter(Boolean).join(sep)`.
`Option.toList` models the possibly-undefined `process.env.PATH` entry;
`filter (· ≠ "")` models `filter(Boolean)` on strings. -/
def extendedPath (e : EnvSnapshot) : String :=
  joinSep (pathSeparator e)
    ((e.path.toList ++ (additionalPaths e).filter (fun s => s ≠ "")).filter
      (fun s => s ≠ ""))

/-! ## Response contracts -/

/-- Contract `UpdateCheckResult` (`libs/types`, `updates.ts`). -/
structure UpdateCheckResult where
  updateAvailable : Bool
  localVersion : String
  localVersionShort : String
  remoteVersion : Option String
  remoteVersionShort : Option String
  sourceUrl : String
  installPath : String
  error : Option String := none
deriving DecidableEq, Repr

/-- Contract `UpdatePullResult` (`libs/types`, `updates.ts`). -/
structure UpdatePullResult where
  success : Bool
  previousVersion : String
  previousVersionShort : String
  newVersion : String
  newVersionShort : String
  alreadyUpToDate : Bool
  message : String
deriving DecidableEq, Repr

/-- An HTTP reply of a route handler: `res.json({success:true, result})` or
`res.status(code).json({success:false, error})`. -/
inductive ApiResponse (α : Type) where
  | success (result : α)
  | failure (status : Nat) (error : String)
deriving DecidableEq, Repr

/-- The default upstream URL (`check.ts:48`, `pull.ts:60`). -/
def defaultUpstreamUrl : String := "https://github.com/AutoMaker-Org/automaker.git"

/-- Resolution `settings.autoUpdate?.upstreamUrl || default`: JavaScript `||` falls
back on both an absent and an empty string. -/
def resolveUpstreamUrl (configured : Option String) : String :=
  match configured with
  | some u => if u = "" then defaultUpstreamUrl else u
  | none => defaultUpstreamUrl

/-- The substring test `mergeOutput.includes(t)` of JavaScript: `t` occurs
contiguously in `s`. -/
def includesSubstr (s t : String) : Bool :=
  s.data.tails.any (fun suffix => List.isPrefixOf t.data suffix)

/-- The fixed temporary-remote name of the inline check handler
(`check.ts:55`). -/
def checkTempRemoteName : String := "automaker-update-check"

/-- The fixed temporary-remote name of the inline pull handler
(`part_003:74`, `part_004:65`). -/
def pullTempRemoteName : String := "automaker-update-pull"

/-! ## Temporary-remote scope -/

/-- Modelled from the spec: `withTempGitRemote` is imported from the
updates common module by the validated check/pull handlers but its
definition is not present in the sources; section 4.4 of the specification
gives its contract — (1) best-effort remove any pre-existing remote of the
reserved name, ignoring failure, (2) add a remote of that name pointing at
`url`, (3) run `body` with the name, (4) on every exit path best-effort
remove the remote again, ignoring failure, with an error of `body`
propagating to the caller after the cleanup. -/
def withTempGitRemote (name url : String) (body : String → GitM α) : GitM α :=
  GitM.bind (tryIgnore (exec (Cmd.remoteRemove name))) (fun _ =>
    GitM.bind (exec (Cmd.remoteAdd name url)) (fun _ =>
      fun w =>
        match body name w with
        | (Except.ok a, w', t) =>
          match tryIgnore (exec (Cmd.remoteRemove name)) w' with
          | (_, w'', t') => (Except.ok a, w'', t ++ t')
        | (Except.error e, w', t) =>
          match tryIgnore (exec (Cmd.remoteRemove name)) w' with
          | (_, w'', t') => (Except.error e, w'', t ++ t')))

/-! ## Check handlers (`check.ts`) -/

/-- The inline check handler, `createCheckHandler` of `check.ts:22-167`
(the variant that manages the temporary remote in place, with no URL
validation).  `installPath` is the resolved automaker root and
`configuredUrl` the `autoUpdate?.upstreamUrl` field of the settings snapshot. -/
def createCheckHandlerInline (installPath : String) (configuredUrl : Option String) :
    GitM (ApiResponse UpdateCheckResult) :=
  tryCatchM
    (do
      let gitOk ← isGitAvailable
      if !gitOk then
        GitM.pure (ApiResponse.failure 500 "Git is not installed or not available in PATH")
      else do
      let repoOk ← isGitRepo
      if !repoOk then
        GitM.pure (ApiResponse.failure 500 "Automaker installation is not a git repository")
      else do
      let sourceUrl := resolveUpstreamUrl configuredUrl
      let localVersion ← getCurrentCommit
      let localVersionShort ← getShortCommit
      tryCatchM
        (do
          let _ ← tryIgnore (exec (Cmd.remoteRemove checkTempRemoteName))
          let _ ← exec (Cmd.remoteAdd checkTempRemoteName sourceUrl)
          let _ ← exec (Cmd.fetchMain checkTempRemoteName)
          let remoteVersionOutput ← exec (Cmd.revParseRemoteMain checkTempRemoteName)
          let remoteVersion := trimStr remoteVersionOutput
          let remoteVersionShortOutput ← exec (Cmd.revParseShortRemoteMain checkTempRemoteName)
          let remoteVersionShort := trimStr remoteVersionShortOutput
          let _ ← exec (Cmd.remoteRemove checkTempRemoteName)
          let updateAvailable ←
            if localVersion ≠ remoteVersion then
              tryCatchM
                (GitM.bind (exec (Cmd.mergeBaseIsAncestor localVersion remoteVersion))
                  (fun _ => GitM.pure true))
                (fun _ => GitM.pure false)
            else
              GitM.pure false
          GitM.pure (ApiResponse.success
            { updateAvailable := updateAvailable
              localVersion := localVersion
              localVersionShort := localVersionShort
              remoteVersion := some remoteVersion
              remoteVersionShort := some remoteVersionShort
              sourceUrl := sourceUrl
              installPath := installPath
              error := none }))
        (fun fetchError => do
          let _ ← tryIgnore (exec (Cmd.remoteRemove checkTempRemoteName))
          GitM.pure (ApiResponse.success
            { updateAvailable := false
              localVersion := localVersion
              localVersionShort := localVersionShort
              remoteVersion := none
              remoteVersionShort := none
              sourceUrl := sourceUrl
              installPath := installPath
              error := some ("Could not fetch from upstream: " ++ fetchError) })))
    (fun e => GitM.pure (ApiResponse.failure 500 e))

/-- The validated check handler, `createCheckHandler` of `check.ts:191-310`
(the variant that validates the upstream URL and delegates the
temporary-remote discipline to `withTempGitRemote`). -/
def createCheckHandlerValidated (installPath : String) (configuredUrl : Option String) :
    GitM (ApiResponse UpdateCheckResult) :=
  tryCatchM
    (do
      let gitOk ← isGitAvailable
      if !gitOk then
        GitM.pure (ApiResponse.failure 500 "Git is not installed or not available in PATH")
      else do
      let repoOk ← isGitRepo
      if !repoOk then
        GitM.pure (ApiResponse.failure 500 "Automaker installation is not a git repository")
      else do
      let sourceUrl := resolveUpstreamUrl configuredUrl
      if !isValidGitUrl sourceUrl then
        GitM.pure (ApiResponse.failure 400 "Invalid upstream URL format")
      else do
      let localVersion ← getCurrentCommit
      let localVersionShort ← getShortCommit
      tryCatchM
        (do
          let result ← withTempGitRemote checkTempRemoteName sourceUrl (fun tempRemoteName => do
            let _ ← exec (Cmd.fetchMain tempRemoteName)
            let remoteVersionOutput ← exec (Cmd.revParseRemoteMain tempRemoteName)
            let remoteVersion := trimStr remoteVersionOutput
            let remoteVersionShortOutput ← exec (Cmd.revParseShortRemoteMain tempRemoteName)
            let remoteVersionShort := trimStr remoteVersionShortOutput
            let updateAvailable ←
              if localVersion ≠ remoteVersion then
                tryCatchM
                  (GitM.bind (exec (Cmd.mergeBaseIsAncestor localVersion remoteVersion))
                    (fun _ => GitM.pure true))
                  (fun _ => GitM.pure false)
              else
                GitM.pure false
            GitM.pure
              { updateAvailable := updateAvailable
                localVersion := localVersion
                localVersionShort := localVersionShort
                remoteVersion := some remoteVersion
                remoteVersionShort := some remoteVersionShort
                sourceUrl := sourceUrl
                installPath := installPath
                error := none })
          GitM.pure (ApiResponse.success result))
        (fun fetchError =>
          GitM.pure (ApiResponse.success
            { updateAvailable := false
              localVersion := localVersion
              localVersionShort := localVersionShort
              remoteVersion := none
              remoteVersionShort := none
              sourceUrl := sourceUrl
              installPath := installPath
              error := some ("Could not fetch from upstream: " ++ fetchError) })))
    (fun e => GitM.pure (ApiResponse.failure 500 e))

/-! ## Pull handler (`part_004`, the inline variant of `createPullHandler`;
`pull.ts` computes the same result through `withTempGitRemote`) -/

/-- The inline pull handler, `createPullHandler` of `part_004` (identical
result logic to `pull.ts:25-145`). -/
def createPullHandlerInline (installPath : String) (configuredUrl : Option String) :
    GitM (ApiResponse UpdatePullResult) :=
  tryCatchM
    (do
      let gitOk ← isGitAvailable
      if !gitOk then
        GitM.pure (ApiResponse.failure 500 "Git is not installed or not available in PATH")
      else do
      let repoOk ← isGitRepo
      if !repoOk then
        GitM.pure (ApiResponse.failure 500 "Automaker installation is not a git repository")
      else do
      let dirty ← hasLocalChanges
      if dirty then
        GitM.pure (ApiResponse.failure 400
          "You have local uncommitted changes. Please commit or stash them before updating.")
      else do
      let sourceUrl := resolveUpstreamUrl configuredUrl
      let previousVersion ← getCurrentCommit
      let previousVersionShort ← getShortCommit
      tryCatchM
        (do
          let _ ← tryIgnore (exec (Cmd.remoteRemove pullTempRemoteName))
          let _ ← exec (Cmd.remoteAdd pullTempRemoteName sourceUrl)
          let _ ← exec (Cmd.fetchMain pullTempRemoteName)
          let branchOutput ← exec Cmd.revParseAbbrevRefHead
          let _ := trimStr branchOutput
          let mergeOutput ← exec (Cmd.mergeFFOnly pullTempRemoteName)
          let _ ← exec (Cmd.remoteRemove pullTempRemoteName)
          let newVersion ← getCurrentCommit
          let newVersionShort ← getShortCommit
          let alreadyUpToDate :=
            includesSubstr mergeOutput "Already up to date" || previousVersion == newVersion
          GitM.pure (ApiResponse.success
            { success := true
              previousVersion := previousVersion
              previousVersionShort := previousVersionShort
              newVersion := newVersion
              newVersionShort := newVersionShort
              alreadyUpToDate := alreadyUpToDate
              message := if alreadyUpToDate then "Already up to date"
                else "Updated from " ++ previousVersionShort ++ " to " ++ newVersionShort }))
        (fun pullError => do
          let _ ← tryIgnore (exec (Cmd.remoteRemove pullTempRemoteName))
          if includesSubstr pullError "not possible to fast-forward" then
            GitM.pure (ApiResponse.failure 400
              "Cannot fast-forward merge. Your local branch has diverged from upstream. Please resolve manually.")
          else if includesSubstr pullError "CONFLICT" then
            GitM.pure (ApiResponse.failure 400
              "Merge conflict detected. Please resolve conflicts manually.")
          else
            GitM.pure (ApiResponse.failure 500 ("Failed to pull updates: " ++ pullError))))
    (fun e => GitM.pure (ApiResponse.failure 500 e))

/-! ## Concrete worlds and environments used as evaluation points -/

/-- A healthy installation: git present, a clean repository, upstream
reachable, nothing related by ancestry unless stated otherwise. -/
def baseWorld : World :=
  { remotes := []
    gitAvailable := true
    isRepo := true
    statusResult := Except.ok ""
    headCommit := "1111111aaaaaaa"
    headShort := "1111111"
    upstreamTip := "2222222bbbbbbb"
    upstreamTipShort := "2222222"
    fetchOk := true
    fetchErr := "Could not resolve host: github.com"
    fetched := false
    currentBranch := "main"
    ancestor := fun _ _ => false }

/-- A Unix environment with only the inherited PATH set. -/
def unixEnv : EnvSnapshot :=
  { isWin32 := false
    path := some "/usr/bin"
    localAppData := none
    programFiles := none
    programFilesX86 := none
    home := none }

/-! ## C3: the URL validator -/

/-- C3: `isValidGitUrl` returns true exactly when the string begins with
one of the accepted scheme prefixes (`https://`, `git@`, `git://`,
`ssh://`) and contains none of the blocked shell metacharacters; any
string containing a blocked character is rejected regardless of its
prefix; and the four example URLs of the specification are accepted. -/
theorem isValidGitUrl_characterization :
    (∀ url : String, isValidGitUrl url = true ↔
      ((strStartsWith url "https://" = true ∨ strStartsWith url "git@" = true ∨
        strStartsWith url "git://" = true ∨ strStartsWith url "ssh://" = true) ∧
       ∀ c ∈ url.data, c ∉ shellMetachars)) ∧
    (∀ (url : String) (c : Char), c ∈ url.data → c ∈ shellMetachars →
      isValidGitUrl url = false) ∧
    isValidGitUrl "https://host/path.git" = true ∧
    isValidGitUrl "git@host:path.git" = true ∧
    isValidGitUrl "ssh://host/path" = true ∧
    isValidGitUrl "git://host/path" = true := by
  refine ⟨?_, ?_, by decide, by decide, by decide, by decide⟩
  · intro url
    simp [isValidGitUrl, startsWithValidProtocol, hasShellChars, List.any_eq_true]
    tauto
  · intro url c hc hm
    simp [isValidGitUrl, hasShellChars, List.any_eq_true]
    intro _
    exact ⟨c, hc, hm⟩

/-- Witness for C3: the validator applied at the examples of the specification concerning
injection-attempt URL, rejected because of the semicolon it contains. -/
theorem isValidGitUrl_characterization_witness :
    isValidGitUrl "https://evil.com/x; rm -rf /" = false :=
  isValidGitUrl_characterization.2.1 "https://evil.com/x; rm -rf /" ';'
    (by decide) (by decide)

/-! ## C10: the double quote is not blocked -/

/-- C10: the blocked character class omits the double quote: a URL with a
valid scheme containing `"` passes `isValidGitUrl`, although the accepted
URL is interpolated between double quotes into the constructed
`git remote add` command line. -/
theorem isValidGitUrl_allows_double_quote :
    isValidGitUrl "https://host/a\"b" = true ∧
    shellMetachars.contains '"' = false ∧
    remoteAddCommandLine checkTempRemoteName "https://host/a\"b" =
      "git remote add automaker-update-check \"https://host/a\"b\"" := by
  refine ⟨by decide, by decide, ?_⟩
  rfl

/-! ## C8: the extended search path -/

/-- Counterexample for C8: on a Unix environment with inherited
`PATH=/usr/bin`, the extended path *begins* with the inherited entry and
the platform-specific known directories follow it — they do not precede
the inherited path as claimed. -/
theorem extendedPath_inherited_first_counterexample :
    extendedPath unixEnv =
      "/usr/bin:/opt/homebrew/bin:/usr/local/bin:/home/linuxbrew/.linuxbrew/bin" ∧
    strStartsWith (extendedPath unixEnv) "/usr/bin" = true ∧
    strStartsWith (extendedPath unixEnv) "/opt/homebrew/bin" = false := by
  refine ⟨?_, by decide, by decide⟩
  rfl

/-- C8 (amended): the extended search path is the inherited PATH value
followed by the platform-specific known install directories (empty entries
removed), joined with the platform separator — the known directories come
after the inherited path, not ahead of it. -/
theorem extendedPath_appends_known_dirs (e : EnvSnapshot) (p : String)
    (hp : e.path = some p) (hpne : p ≠ "")
    (hadd : (additionalPaths e).filter (fun s => s ≠ "") ≠ []) :
    extendedPath e = p ++ pathSeparator e ++
      joinSep (pathSeparator e) ((additionalPaths e).filter (fun s => s ≠ "")) := by
  unfold extendedPath
  rw [hp]
  have h1 : (some p).toList = [p] := rfl
  rw [h1]
  have h2 : (([p] ++ (additionalPaths e).filter (fun s => s ≠ "")).filter
      (fun s => s ≠ "")) = p :: (additionalPaths e).filter (fun s => s ≠ "") := by
    rw [List.filter_append, List.filter_filter]
    simp [hpne]
  rw [h2]
  cases hl : (additionalPaths e).filter (fun s => s ≠ "") with
  | nil => exact absurd hl hadd
  | cons a as => simp [joinSep]

/-- Witness for C8 (amended), evaluated on the Unix environment. -/
theorem extendedPath_appends_known_dirs_witness :
    extendedPath unixEnv = "/usr/bin" ++ pathSeparator unixEnv ++
      joinSep (pathSeparator unixEnv)
        ((additionalPaths unixEnv).filter (fun s => s ≠ "")) :=
  extendedPath_appends_known_dirs unixEnv "/usr/bin" rfl (by decide) (by decide)

/-! ## C7: degradation of the boolean check helpers -/

/-- Counterexample for C7: when `git status --porcelain` fails,
`hasLocalChanges` does not degrade to false — it propagates the process
error (the source wraps no `try`/`catch` around this helper). -/
theorem hasLocalChanges_propagates_counterexample :
    (hasLocalChanges
      { baseWorld with statusResult := Except.error "fatal: unable to read tree" }).1
      = Except.error "fatal: unable to read tree" ∧
    (hasLocalChanges
      { baseWorld with statusResult := Except.error "fatal: unable to read tree" }).1
      ≠ Except.ok false := by
  refine ⟨rfl, ?_⟩
  simp [hasLocalChanges, exec, step, GitM.bind, GitM.pure, baseWorld]

/-- C7 (amended): on failure of the underlying process command,
`isGitAvailable` and `isGitRepo` return false instead of raising, while
`hasLocalChanges` propagates the process error to its caller. -/
theorem check_helpers_degrade_to_false :
    (∀ w : World, w.gitAvailable = false → (isGitAvailable w).1 = Except.ok false) ∧
    (∀ w : World, w.isRepo = false → (isGitRepo w).1 = Except.ok false) ∧
    (∀ (w : World) (e : String), w.statusResult = Except.error e →
      (hasLocalChanges w).1 = Except.error e) := by
  refine ⟨?_, ?_, ?_⟩
  · intro w h
    simp [isGitAvailable, tryCatchM, exec, step, GitM.bind, GitM.pure, h]
  · intro w h
    simp [isGitRepo, tryCatchM, exec, step, GitM.bind, GitM.pure, h]
  · intro w e h
    simp [hasLocalChanges, exec, step, GitM.bind, GitM.pure, h]

/-- Witness for C7 (amended), at a world with no git tool and a failing
status command. -/
theorem check_helpers_degrade_to_false_witness :
    (isGitAvailable { baseWorld with gitAvailable := false }).1 = Except.ok false ∧
    (hasLocalChanges { baseWorld with statusResult := Except.error "boom" }).1
      = Except.error "boom" :=
  ⟨check_helpers_degrade_to_false.1 _ rfl,
   check_helpers_degrade_to_false.2.2 _ "boom" rfl⟩

/-! ## C2: the temporary-remote scope discipline -/

/-- The removed name is absent afterwards. -/
theorem not_mem_removeRemote (name : String) (l : List String) :
    name ∉ removeRemote l name := by
  simp [removeRemote, List.mem_filter]

/-- Removing an absent name is the identity. -/
theorem removeRemote_of_not_mem {name : String} {l : List String}
    (h : name ∉ l) : removeRemote l name = l := by
  rw [removeRemote, List.filter_eq_self]
  intro a ha
  simp
  rintro rfl
  exact h ha

/-- The list left by a removal does not contain the removed name. -/
theorem contains_removeRemote_self (name : String) (l : List String) :
    (removeRemote l name).contains name = false := by
  simpa using not_mem_removeRemote name l

/-- The best-effort removal always succeeds (the ignored-error branch
included), removes every occurrence of the name, and issues exactly the
one removal command. -/
theorem tryIgnore_remove_run (name : String) (w : World) :
    (tryIgnore (exec (Cmd.remoteRemove name))) w =
      (Except.ok (), { w with remotes := removeRemote w.remotes name },
       [Cmd.remoteRemove name]) := by
  by_cases h : name ∈ w.remotes
  · simp [tryIgnore, tryCatchM, exec, step, GitM.bind, GitM.pure, h]
  · simp [tryIgnore, tryCatchM, exec, step, GitM.bind, GitM.pure, h,
      removeRemote_of_not_mem h]

/-- C2: for every temporary-remote scope execution, whatever the body
does, on every exit path the reserved name is absent from the
remote list of the repository afterwards; an error thrown by the body
propagates to the caller (cleanup failures are swallowed and never
replace it), and a normal result of the body is returned unchanged. -/
theorem withTempGitRemote_scope (α : Type) (name url : String)
    (body : String → GitM α) (w : World) (e : String) (a : α) :
    name ∉ ((withTempGitRemote name url body) w).2.1.remotes ∧
    ((withTempGitRemote name url (fun _ => throwM (α := α) e)) w).1
      = Except.error e ∧
    ((withTempGitRemote name url (fun _ => GitM.pure (α := α) a)) w).1
      = Except.ok a := by
  refine ⟨?_, ?_, ?_⟩
  · unfold withTempGitRemote
    simp only [GitM.bind, tryIgnore_remove_run, exec, step, contains_removeRemote_self,
      Bool.false_eq_true, if_false]
    rcases body name _ with ⟨r, w1, t⟩
    cases r <;> simp only [tryIgnore_remove_run] <;> exact not_mem_removeRemote _ _
  · unfold withTempGitRemote
    simp [GitM.bind, tryIgnore_remove_run, exec, step, not_mem_removeRemote,
      throwM]
  · unfold withTempGitRemote
    simp [GitM.bind, tryIgnore_remove_run, exec, step, not_mem_removeRemote,
      GitM.pure]

/-! ## Evaluation lemmas for the inspection helpers -/

theorem isGitAvailable_run (w : World) :
    isGitAvailable w = (Except.ok w.gitAvailable, w, [Cmd.gitVersion]) := by
  cases h : w.gitAvailable <;>
    simp [isGitAvailable, tryCatchM, exec, step, GitM.bind, GitM.pure, h]

theorem isGitRepo_run (w : World) :
    isGitRepo w = (Except.ok w.isRepo, w, [Cmd.revParseIsInsideWorkTree]) := by
  cases h : w.isRepo <;>
    simp [isGitRepo, tryCatchM, exec, step, GitM.bind, GitM.pure, h]

theorem getCurrentCommit_run (w : World) (h : w.isRepo = true) :
    getCurrentCommit w =
      (Except.ok (trimStr w.headCommit), w, [Cmd.revParseHead]) := by
  simp [getCurrentCommit, exec, step, GitM.bind, GitM.pure, h]

theorem getShortCommit_run (w : World) (h : w.isRepo = true) :
    getShortCommit w =
      (Except.ok (trimStr w.headShort), w, [Cmd.revParseShortHead]) := by
  simp [getShortCommit, exec, step, GitM.bind, GitM.pure, h]

theorem hasLocalChanges_run (w : World) (s : String)
    (h : w.statusResult = Except.ok s) :
    hasLocalChanges w =
      (Except.ok (decide ((trimStr s).length > 0)), w, [Cmd.statusPorcelain]) := by
  simp [hasLocalChanges, exec, step, GitM.bind, GitM.pure, h]

/-! ## Branch characterizations of the inline check handler -/

/-- Preconditions pass and the fetch succeeds: the handler returns the
success envelope built from the fetched upstream tip, with availability
decided by equality and the is-ancestor query. -/
theorem checkInline_success_run (ip : String) (cfg : Option String) (w : World)
    (hg : w.gitAvailable = true) (hr : w.isRepo = true) (hf : w.fetchOk = true) :
    ((createCheckHandlerInline ip cfg) w).1 = Except.ok (ApiResponse.success
      { updateAvailable :=
          if trimStr w.headCommit = trimStr w.upstreamTip then false
          else w.ancestor (trimStr w.headCommit) (trimStr w.upstreamTip)
        localVersion := trimStr w.headCommit
        localVersionShort := trimStr w.headShort
        remoteVersion := some (trimStr w.upstreamTip)
        remoteVersionShort := some (trimStr w.upstreamTipShort)
        sourceUrl := resolveUpstreamUrl cfg
        installPath := ip
        error := none }) := by
  by_cases he : trimStr w.headCommit = trimStr w.upstreamTip
  · simp [createCheckHandlerInline, tryCatchM, GitM.bind, GitM.pure,
      isGitAvailable_run, isGitRepo_run, getCurrentCommit_run, getShortCommit_run,
      tryIgnore_remove_run, not_mem_removeRemote, exec, step, hg, hr, hf, he]
  · by_cases ha : w.ancestor (trimStr w.headCommit) (trimStr w.upstreamTip) = true
    · simp [createCheckHandlerInline, tryCatchM, GitM.bind, GitM.pure,
        isGitAvailable_run, isGitRepo_run, getCurrentCommit_run, getShortCommit_run,
        tryIgnore_remove_run, not_mem_removeRemote, exec, step, hg, hr, hf, he, ha]
    · simp [createCheckHandlerInline, tryCatchM, GitM.bind, GitM.pure,
        isGitAvailable_run, isGitRepo_run, getCurrentCommit_run, getShortCommit_run,
        tryIgnore_remove_run, not_mem_removeRemote, exec, step, hg, hr, hf, he, ha]

/-- Preconditions pass but the upstream fetch fails: the handler still
returns a success envelope, with unavailable remote fields and the fetch
failure message in `error`. -/
theorem checkInline_fetchfail_run (ip : String) (cfg : Option String) (w : World)
    (hg : w.gitAvailable = true) (hr : w.isRepo = true) (hf : w.fetchOk = false) :
    ((createCheckHandlerInline ip cfg) w).1 = Except.ok (ApiResponse.success
      { updateAvailable := false
        localVersion := trimStr w.headCommit
        localVersionShort := trimStr w.headShort
        remoteVersion := none
        remoteVersionShort := none
        sourceUrl := resolveUpstreamUrl cfg
        installPath := ip
        error := some ("Could not fetch from upstream: " ++ w.fetchErr) }) := by
  simp [createCheckHandlerInline, tryCatchM, GitM.bind, GitM.pure,
    isGitAvailable_run, isGitRepo_run, getCurrentCommit_run, getShortCommit_run,
    tryIgnore_remove_run, not_mem_removeRemote, exec, step, hg, hr, hf]

/-- The git tool is unavailable: failure envelope, status 500. -/
theorem checkInline_noGit_run (ip : String) (cfg : Option String) (w : World)
    (hg : w.gitAvailable = false) :
    ((createCheckHandlerInline ip cfg) w).1 = Except.ok
      (ApiResponse.failure 500 "Git is not installed or not available in PATH") := by
  simp [createCheckHandlerInline, tryCatchM, GitM.bind, GitM.pure,
    isGitAvailable_run, hg]

/-- The install path is not a repository: failure envelope, status 500. -/
theorem checkInline_notRepo_run (ip : String) (cfg : Option String) (w : World)
    (hg : w.gitAvailable = true) (hr : w.isRepo = false) :
    ((createCheckHandlerInline ip cfg) w).1 = Except.ok
      (ApiResponse.failure 500 "Automaker installation is not a git repository") := by
  simp [createCheckHandlerInline, tryCatchM, GitM.bind, GitM.pure,
    isGitAvailable_run, isGitRepo_run, hg, hr]

/-! ## C1: availability is strict ancestry -/

/-- C1: when the preconditions pass and the upstream fetch succeeds, the
check handler returns a success result whose `updateAvailable` is true
exactly when the local revision differs from the remote revision and the
is-ancestor query confirms local is an ancestor of remote; equal, ahead
and diverged histories all report false, and `remoteVersion` is the
upstream tip. -/
theorem check_updateAvailable_iff_strict_ancestor (ip : String)
    (cfg : Option String) (w : World) (hg : w.gitAvailable = true)
    (hr : w.isRepo = true) (hf : w.fetchOk = true) :
    ∃ r : UpdateCheckResult,
      ((createCheckHandlerInline ip cfg) w).1 = Except.ok (ApiResponse.success r) ∧
      (r.updateAvailable = true ↔
        (trimStr w.headCommit ≠ trimStr w.upstreamTip ∧
         w.ancestor (trimStr w.headCommit) (trimStr w.upstreamTip) = true)) ∧
      r.remoteVersion = some (trimStr w.upstreamTip) ∧
      r.localVersion = trimStr w.headCommit ∧
      r.error = none := by
  refine ⟨_, checkInline_success_run ip cfg w hg hr hf, ?_, rfl, rfl, rfl⟩
  by_cases he : trimStr w.headCommit = trimStr w.upstreamTip <;> simp [he]

/-- Witness for C1 at the healthy base world (differing revisions, the
ancestor query answering false: no update reported). -/
theorem check_updateAvailable_iff_strict_ancestor_witness :
    ∃ r : UpdateCheckResult,
      ((createCheckHandlerInline "/app" none) baseWorld).1
        = Except.ok (ApiResponse.success r) ∧
      (r.updateAvailable = true ↔
        (trimStr baseWorld.headCommit ≠ trimStr baseWorld.upstreamTip ∧
         baseWorld.ancestor (trimStr baseWorld.headCommit)
           (trimStr baseWorld.upstreamTip) = true)) ∧
      r.remoteVersion = some (trimStr baseWorld.upstreamTip) ∧
      r.localVersion = trimStr baseWorld.headCommit ∧
      r.error = none :=
  check_updateAvailable_iff_strict_ancestor "/app" none baseWorld rfl rfl rfl

/-! ## C6: fetch failure is a soft success -/

/-- C6: when the preconditions pass but the upstream fetch fails, the
check handler returns a *success* envelope whose result has
`updateAvailable = false`, null remote fields, populated local fields and
the fetch failure message in `error`; and the remote fields are null
*only* in that case — a success result without `error` carries the
upstream tip. -/
theorem check_fetch_failure_soft_success :
    (∀ (ip : String) (cfg : Option String) (w : World),
      w.gitAvailable = true → w.isRepo = true → w.fetchOk = false →
      ((createCheckHandlerInline ip cfg) w).1 = Except.ok (ApiResponse.success
        { updateAvailable := false
          localVersion := trimStr w.headCommit
          localVersionShort := trimStr w.headShort
          remoteVersion := none
          remoteVersionShort := none
          sourceUrl := resolveUpstreamUrl cfg
          installPath := ip
          error := some ("Could not fetch from upstream: " ++ w.fetchErr) })) ∧
    (∀ (ip : String) (cfg : Option String) (w : World) (r : UpdateCheckResult),
      ((createCheckHandlerInline ip cfg) w).1 = Except.ok (ApiResponse.success r) →
      r.error = none →
      r.remoteVersion = some (trimStr w.upstreamTip) ∧
      r.remoteVersionShort = some (trimStr w.upstreamTipShort)) := by
  refine ⟨fun ip cfg w hg hr hf => checkInline_fetchfail_run ip cfg w hg hr hf, ?_⟩
  intro ip cfg w r hrun hre
  cases hg : w.gitAvailable with
  | false => rw [checkInline_noGit_run ip cfg w hg] at hrun; simp at hrun
  | true =>
    cases hr : w.isRepo with
    | false => rw [checkInline_notRepo_run ip cfg w hg hr] at hrun; simp at hrun
    | true =>
      cases hf : w.fetchOk with
      | false =>
        rw [checkInline_fetchfail_run ip cfg w hg hr hf] at hrun
        simp at hrun
        rw [← hrun] at hre
        simp at hre
      | true =>
        rw [checkInline_success_run ip cfg w hg hr hf] at hrun
        simp at hrun
        rw [← hrun]
        simp

/-- Witness for C6, at the base world with an unreachable upstream. -/
theorem check_fetch_failure_soft_success_witness :
    ((createCheckHandlerInline "/app" none) { baseWorld with fetchOk := false }).1
      = Except.ok (ApiResponse.success
      { updateAvailable := false
        localVersion := trimStr baseWorld.headCommit
        localVersionShort := trimStr baseWorld.headShort
        remoteVersion := none
        remoteVersionShort := none
        sourceUrl := resolveUpstreamUrl none
        installPath := "/app"
        error := some ("Could not fetch from upstream: " ++ baseWorld.fetchErr) }) :=
  check_fetch_failure_soft_success.1 "/app" none
    { baseWorld with fetchOk := false } rfl rfl rfl

/-! ## C4: invalid upstream URL in the validated check handler -/

/-- When the precondition probes pass and the configured URL fails
validation, the validated check handler replies with the invalid-URL
failure envelope, leaves the world untouched, and the only commands it has
executed are the two precondition probes — no command carrying the URL
ever reaches the executor. -/
theorem checkValidated_invalidUrl_run (ip : String) (cfg : Option String)
    (w : World) (hg : w.gitAvailable = true) (hr : w.isRepo = true)
    (hv : isValidGitUrl (resolveUpstreamUrl cfg) = false) :
    (createCheckHandlerValidated ip cfg) w =
      (Except.ok (ApiResponse.failure 400 "Invalid upstream URL format"), w,
       [Cmd.gitVersion, Cmd.revParseIsInsideWorkTree]) := by
  simp [createCheckHandlerValidated, tryCatchM, GitM.bind, GitM.pure,
    isGitAvailable_run, isGitRepo_run, hg, hr, hv]

/-- Counterexample for C4: with the injection-attempt URL of the specification
configured, the validated check handler does return the invalid-URL
failure envelope, but its command trace is *not* empty — the
tool-availability and repository probes were executed before validation,
so a process is spawned during the call. -/
theorem check_invalidUrl_spawns_probes_counterexample :
    ((createCheckHandlerValidated "/app"
        (some "https://evil.com/x; rm -rf /")) baseWorld).1
      = Except.ok (ApiResponse.failure 400 "Invalid upstream URL format") ∧
    ((createCheckHandlerValidated "/app"
        (some "https://evil.com/x; rm -rf /")) baseWorld).2.2 ≠ [] ∧
    Cmd.gitVersion ∈ ((createCheckHandlerValidated "/app"
        (some "https://evil.com/x; rm -rf /")) baseWorld).2.2 := by
  have h := checkValidated_invalidUrl_run "/app"
    (some "https://evil.com/x; rm -rf /") baseWorld rfl rfl (by decide)
  rw [h]
  refine ⟨rfl, by simp, by simp⟩

/-- C4 (amended): on a validated-check call whose precondition probes pass
and whose configured URL fails validation, the handler returns the
invalid-URL failure envelope having executed exactly the two precondition
probes and nothing else: no remote, fetch or merge command runs and the
URL is never interpolated into an executed command. -/
theorem check_invalidUrl_no_url_command (ip : String) (cfg : Option String)
    (w : World) (hg : w.gitAvailable = true) (hr : w.isRepo = true)
    (hv : isValidGitUrl (resolveUpstreamUrl cfg) = false) :
    ((createCheckHandlerValidated ip cfg) w).1
      = Except.ok (ApiResponse.failure 400 "Invalid upstream URL format") ∧
    ((createCheckHandlerValidated ip cfg) w).2.2
      = [Cmd.gitVersion, Cmd.revParseIsInsideWorkTree] := by
  rw [checkValidated_invalidUrl_run ip cfg w hg hr hv]
  exact ⟨rfl, rfl⟩

/-- Witness for C4 (amended) at the base world and the injection URL. -/
theorem check_invalidUrl_no_url_command_witness :
    ((createCheckHandlerValidated "/app"
        (some "https://evil.com/x; rm -rf /")) baseWorld).1
      = Except.ok (ApiResponse.failure 400 "Invalid upstream URL format") ∧
    ((createCheckHandlerValidated "/app"
        (some "https://evil.com/x; rm -rf /")) baseWorld).2.2
      = [Cmd.gitVersion, Cmd.revParseIsInsideWorkTree] :=
  check_invalidUrl_no_url_command "/app" (some "https://evil.com/x; rm -rf /")
    baseWorld rfl rfl (by decide)

/-! ## Branch characterizations of the inline pull handler -/

/-- The merge output in the up-to-date case contains the marker. -/
theorem includes_uptodate_marker :
    includesSubstr "Already up to date." "Already up to date" = true := by decide

/-- The fast-forward output does not contain the marker. -/
theorem ff_output_no_marker :
    includesSubstr "Fast-forward" "Already up to date" = false := by decide

/-- An empty porcelain status reads as a clean tree. -/
theorem trim_empty_not_dirty : decide ((trimStr "").length > 0) = false := by decide

theorem pullInline_noGit_run (ip : String) (cfg : Option String) (w : World)
    (hg : w.gitAvailable = false) :
    ((createPullHandlerInline ip cfg) w).1 = Except.ok
      (ApiResponse.failure 500 "Git is not installed or not available in PATH") := by
  simp [createPullHandlerInline, tryCatchM, GitM.bind, GitM.pure,
    isGitAvailable_run, hg]

theorem pullInline_notRepo_run (ip : String) (cfg : Option String) (w : World)
    (hg : w.gitAvailable = true) (hr : w.isRepo = false) :
    ((createPullHandlerInline ip cfg) w).1 = Except.ok
      (ApiResponse.failure 500 "Automaker installation is not a git repository") := by
  simp [createPullHandlerInline, tryCatchM, GitM.bind, GitM.pure,
    isGitAvailable_run, isGitRepo_run, hg, hr]

theorem pullInline_statusErr_run (ip : String) (cfg : Option String) (w : World)
    (e : String) (hg : w.gitAvailable = true) (hr : w.isRepo = true)
    (hst : w.statusResult = Except.error e) :
    ((createPullHandlerInline ip cfg) w).1 = Except.ok
      (ApiResponse.failure 500 e) := by
  simp [createPullHandlerInline, tryCatchM, GitM.bind, GitM.pure,
    isGitAvailable_run, isGitRepo_run, hasLocalChanges, exec, step, hg, hr, hst]

theorem pullInline_dirty_run (ip : String) (cfg : Option String) (w : World)
    (s : String) (hg : w.gitAvailable = true) (hr : w.isRepo = true)
    (hst : w.statusResult = Except.ok s)
    (hd : decide ((trimStr s).length > 0) = true) :
    ((createPullHandlerInline ip cfg) w).1 = Except.ok (ApiResponse.failure 400
      "You have local uncommitted changes. Please commit or stash them before updating.") := by
  simp [createPullHandlerInline, tryCatchM, GitM.bind, GitM.pure,
    isGitAvailable_run, isGitRepo_run, hasLocalChanges_run, hg, hr, hst, hd]

theorem pullInline_fetchfail_run (ip : String) (cfg : Option String) (w : World)
    (s : String) (hg : w.gitAvailable = true) (hr : w.isRepo = true)
    (hst : w.statusResult = Except.ok s)
    (hd : decide ((trimStr s).length > 0) = false) (hf : w.fetchOk = false) :
    ∃ code msg, ((createPullHandlerInline ip cfg) w).1
      = Except.ok (ApiResponse.failure code msg) := by
  by_cases h1 : includesSubstr w.fetchErr "not possible to fast-forward" = true
  · refine ⟨400,
      "Cannot fast-forward merge. Your local branch has diverged from upstream. Please resolve manually.",
      ?_⟩
    simp [createPullHandlerInline, tryCatchM, GitM.bind, GitM.pure,
      isGitAvailable_run, isGitRepo_run, hasLocalChanges_run,
      getCurrentCommit_run, getShortCommit_run, tryIgnore_remove_run,
      not_mem_removeRemote, exec, step, hg, hr, hst, hd, hf, h1]
  · by_cases h2 : includesSubstr w.fetchErr "CONFLICT" = true
    · refine ⟨400, "Merge conflict detected. Please resolve conflicts manually.", ?_⟩
      simp [createPullHandlerInline, tryCatchM, GitM.bind, GitM.pure,
        isGitAvailable_run, isGitRepo_run, hasLocalChanges_run,
        getCurrentCommit_run, getShortCommit_run, tryIgnore_remove_run,
        not_mem_removeRemote, exec, step, hg, hr, hst, hd, hf, h1, h2]
    · refine ⟨500, "Failed to pull updates: " ++ w.fetchErr, ?_⟩
      simp [createPullHandlerInline, tryCatchM, GitM.bind, GitM.pure,
        isGitAvailable_run, isGitRepo_run, hasLocalChanges_run,
        getCurrentCommit_run, getShortCommit_run, tryIgnore_remove_run,
        not_mem_removeRemote, exec, step, hg, hr, hst, hd, hf, h1, h2]

/-- The fast-forward-impossible message of the model is not matched by the
lower-case classification test of the handler. -/
theorem mergefail_not_ff_classified :
    includesSubstr "fatal: Not possible to fast-forward, aborting."
      "not possible to fast-forward" = false := by decide

/-- Nor by the conflict test. -/
theorem mergefail_not_conflict_classified :
    includesSubstr "fatal: Not possible to fast-forward, aborting."
      "CONFLICT" = false := by decide

theorem pullInline_mergefail_run (ip : String) (cfg : Option String) (w : World)
    (s : String) (hg : w.gitAvailable = true) (hr : w.isRepo = true)
    (hst : w.statusResult = Except.ok s)
    (hd : decide ((trimStr s).length > 0) = false) (hf : w.fetchOk = true)
    (hne : w.headCommit ≠ w.upstreamTip)
    (ha1 : w.ancestor w.upstreamTip w.headCommit = false)
    (ha2 : w.ancestor w.headCommit w.upstreamTip = false) :
    ((createPullHandlerInline ip cfg) w).1 = Except.ok (ApiResponse.failure 500
      "Failed to pull updates: fatal: Not possible to fast-forward, aborting.") := by
  simp [createPullHandlerInline, tryCatchM, GitM.bind, GitM.pure,
    isGitAvailable_run, isGitRepo_run, hasLocalChanges_run,
    getCurrentCommit_run, getShortCommit_run, tryIgnore_remove_run,
    not_mem_removeRemote, exec, step, hg, hr, hst, hd, hf, hne, ha1, ha2,
    mergefail_not_ff_classified, mergefail_not_conflict_classified]

theorem pullInline_equal_run (ip : String) (cfg : Option String) (w : World)
    (s : String) (hg : w.gitAvailable = true) (hr : w.isRepo = true)
    (hst : w.statusResult = Except.ok s)
    (hd : decide ((trimStr s).length > 0) = false) (hf : w.fetchOk = true)
    (heq : w.headCommit = w.upstreamTip) :
    ((createPullHandlerInline ip cfg) w).1 = Except.ok (ApiResponse.success
      { success := true
        previousVersion := trimStr w.headCommit
        previousVersionShort := trimStr w.headShort
        newVersion := trimStr w.headCommit
        newVersionShort := trimStr w.headShort
        alreadyUpToDate := true
        message := "Already up to date" }) := by
  simp [createPullHandlerInline, tryCatchM, GitM.bind, GitM.pure,
    isGitAvailable_run, isGitRepo_run, hasLocalChanges_run,
    getCurrentCommit_run, getShortCommit_run, tryIgnore_remove_run,
    not_mem_removeRemote, exec, step, hg, hr, hst, hd, hf, heq,
    includes_uptodate_marker]

theorem pullInline_localAhead_run (ip : String) (cfg : Option String) (w : World)
    (s : String) (hg : w.gitAvailable = true) (hr : w.isRepo = true)
    (hst : w.statusResult = Except.ok s)
    (hd : decide ((trimStr s).length > 0) = false) (hf : w.fetchOk = true)
    (hne : w.headCommit ≠ w.upstreamTip)
    (ha1 : w.ancestor w.upstreamTip w.headCommit = true) :
    ((createPullHandlerInline ip cfg) w).1 = Except.ok (ApiResponse.success
      { success := true
        previousVersion := trimStr w.headCommit
        previousVersionShort := trimStr w.headShort
        newVersion := trimStr w.headCommit
        newVersionShort := trimStr w.headShort
        alreadyUpToDate := true
        message := "Already up to date" }) := by
  simp [createPullHandlerInline, tryCatchM, GitM.bind, GitM.pure,
    isGitAvailable_run, isGitRepo_run, hasLocalChanges_run,
    getCurrentCommit_run, getShortCommit_run, tryIgnore_remove_run,
    not_mem_removeRemote, exec, step, hg, hr, hst, hd, hf, hne, ha1,
    includes_uptodate_marker]

theorem pullInline_ff_run (ip : String) (cfg : Option String) (w : World)
    (s : String) (hg : w.gitAvailable = true) (hr : w.isRepo = true)
    (hst : w.statusResult = Except.ok s)
    (hd : decide ((trimStr s).length > 0) = false) (hf : w.fetchOk = true)
    (hne : w.headCommit ≠ w.upstreamTip)
    (ha1 : w.ancestor w.upstreamTip w.headCommit = false)
    (ha2 : w.ancestor w.headCommit w.upstreamTip = true) :
    ((createPullHandlerInline ip cfg) w).1 = Except.ok (ApiResponse.success
      { success := true
        previousVersion := trimStr w.headCommit
        previousVersionShort := trimStr w.headShort
        newVersion := trimStr w.upstreamTip
        newVersionShort := trimStr w.upstreamTipShort
        alreadyUpToDate := (trimStr w.headCommit == trimStr w.upstreamTip)
        message :=
          if (trimStr w.headCommit == trimStr w.upstreamTip) = true then
            "Already up to date"
          else "Updated from " ++ trimStr w.headShort ++ " to "
            ++ trimStr w.upstreamTipShort }) := by
  simp [createPullHandlerInline, tryCatchM, GitM.bind, GitM.pure,
    isGitAvailable_run, isGitRepo_run, hasLocalChanges_run,
    getCurrentCommit_run, getShortCommit_run, tryIgnore_remove_run,
    not_mem_removeRemote, exec, step, hg, hr, hst, hd, hf, hne, ha1, ha2,
    ff_output_no_marker]

/-! ## C5: already-up-to-date agrees with version equality -/

/-- C5: every success result of the pull handler satisfies
`alreadyUpToDate = (previousVersion == newVersion)` — the flag and the
equality agree in both directions. -/
theorem pull_alreadyUpToDate_iff_same_version (ip : String)
    (cfg : Option String) (w : World) (r : UpdatePullResult)
    (hrun : ((createPullHandlerInline ip cfg) w).1
      = Except.ok (ApiResponse.success r)) :
    r.alreadyUpToDate = (r.previousVersion == r.newVersion) := by
  cases hg : w.gitAvailable with
  | false => rw [pullInline_noGit_run ip cfg w hg] at hrun; simp at hrun
  | true =>
  cases hr : w.isRepo with
  | false => rw [pullInline_notRepo_run ip cfg w hg hr] at hrun; simp at hrun
  | true =>
  cases hst : w.statusResult with
  | error e => rw [pullInline_statusErr_run ip cfg w e hg hr hst] at hrun; simp at hrun
  | ok s =>
  cases hd : decide ((trimStr s).length > 0) with
  | true => rw [pullInline_dirty_run ip cfg w s hg hr hst hd] at hrun; simp at hrun
  | false =>
  cases hf : w.fetchOk with
  | false =>
    obtain ⟨code, msg, hcm⟩ := pullInline_fetchfail_run ip cfg w s hg hr hst hd hf
    rw [hcm] at hrun
    simp at hrun
  | true =>
  by_cases heq : w.headCommit = w.upstreamTip
  · rw [pullInline_equal_run ip cfg w s hg hr hst hd hf heq] at hrun
    simp at hrun
    rw [← hrun]
    simp
  · cases ha1 : w.ancestor w.upstreamTip w.headCommit with
    | true =>
      rw [pullInline_localAhead_run ip cfg w s hg hr hst hd hf heq ha1] at hrun
      simp at hrun
      rw [← hrun]
      simp
    | false =>
      cases ha2 : w.ancestor w.headCommit w.upstreamTip with
      | true =>
        rw [pullInline_ff_run ip cfg w s hg hr hst hd hf heq ha1 ha2] at hrun
        simp at hrun
        rw [← hrun]
      | false =>
        rw [pullInline_mergefail_run ip cfg w s hg hr hst hd hf heq ha1 ha2] at hrun
        simp at hrun

/-- The base world with its upstream already at the local revision. -/
def worldAtTip : World :=
  { baseWorld with
    upstreamTip := baseWorld.headCommit
    upstreamTipShort := baseWorld.headShort }

/-- Witness for C5: a pull at a world already at the upstream tip
succeeds with `alreadyUpToDate` and equal versions. -/
theorem pull_alreadyUpToDate_iff_same_version_witness :
    ({ success := true
       previousVersion := trimStr baseWorld.headCommit
       previousVersionShort := trimStr baseWorld.headShort
       newVersion := trimStr baseWorld.headCommit
       newVersionShort := trimStr baseWorld.headShort
       alreadyUpToDate := true
       message := "Already up to date" } : UpdatePullResult).alreadyUpToDate
      = (trimStr baseWorld.headCommit == trimStr baseWorld.headCommit) :=
  pull_alreadyUpToDate_iff_same_version "/app" none worldAtTip _
    (pullInline_equal_run "/app" none worldAtTip "" rfl rfl rfl
      trim_empty_not_dirty rfl rfl)

/-! ## C9: the two handlers use distinct fixed remote names -/

/-- The remote name a command adds or removes, if any. -/
def remoteName? : Cmd → Option String
  | Cmd.remoteRemove n => some n
  | Cmd.remoteAdd n _ => some n
  | _ => none

/-- Every command a computation can ever put in its trace satisfies `p`. -/
def TraceOK (p : Cmd → Prop) (m : GitM α) : Prop :=
  ∀ w : World, ∀ c ∈ (m w).2.2, p c

theorem traceOK_pure {p : Cmd → Prop} (a : α) : TraceOK p (GitM.pure a) := by
  intro w c hc
  simp [GitM.pure] at hc

theorem traceOK_exec {p : Cmd → Prop} {c : Cmd} (hp : p c) : TraceOK p (exec c) := by
  intro w d hd
  rcases hs : step w c with ⟨r, w1⟩
  simp [exec, hs] at hd
  subst hd
  exact hp

theorem traceOK_bind {p : Cmd → Prop} {m : GitM α} {f : α → GitM β}
    (hm : TraceOK p m) (hf : ∀ a, TraceOK p (f a)) :
    TraceOK p (GitM.bind m f) := by
  intro w c hc
  unfold GitM.bind at hc
  rcases hmw : m w with ⟨r, w1, t1⟩
  rw [hmw] at hc
  have hmem : ∀ d ∈ t1, p d := fun d hd => hm w d (by rw [hmw]; exact hd)
  cases r with
  | error e => exact hmem c hc
  | ok a =>
    dsimp only at hc
    rcases hfw : f a w1 with ⟨r2, w2, t2⟩
    rw [hfw] at hc
    dsimp only at hc
    rcases List.mem_append.mp hc with h | h
    · exact hmem c h
    · exact hf a w1 c (by rw [hfw]; exact h)

theorem traceOK_tryCatchM {p : Cmd → Prop} {m : GitM α} {h : String → GitM α}
    (hm : TraceOK p m) (hh : ∀ e, TraceOK p (h e)) :
    TraceOK p (tryCatchM m h) := by
  intro w c hc
  unfold tryCatchM at hc
  rcases hmw : m w with ⟨r, w1, t1⟩
  rw [hmw] at hc
  have hmem : ∀ d ∈ t1, p d := fun d hd => hm w d (by rw [hmw]; exact hd)
  cases r with
  | ok a => exact hmem c hc
  | error e =>
    dsimp only at hc
    rcases hhw : h e w1 with ⟨r2, w2, t2⟩
    rw [hhw] at hc
    dsimp only at hc
    rcases List.mem_append.mp hc with hmem1 | hmem2
    · exact hmem c hmem1
    · exact hh e w1 c (by rw [hhw]; exact hmem2)

theorem traceOK_tryIgnore {p : Cmd → Prop} {m : GitM α} (hm : TraceOK p m) :
    TraceOK p (tryIgnore m) :=
  traceOK_tryCatchM (traceOK_bind hm fun _ => traceOK_pure ())
    (fun _ => traceOK_pure ())

theorem traceOK_isGitAvailable {p : Cmd → Prop} (hp : p Cmd.gitVersion) :
    TraceOK p isGitAvailable :=
  traceOK_tryCatchM (traceOK_bind (traceOK_exec hp) fun _ => traceOK_pure _)
    (fun _ => traceOK_pure _)

theorem traceOK_isGitRepo {p : Cmd → Prop} (hp : p Cmd.revParseIsInsideWorkTree) :
    TraceOK p isGitRepo :=
  traceOK_tryCatchM (traceOK_bind (traceOK_exec hp) fun _ => traceOK_pure _)
    (fun _ => traceOK_pure _)

theorem traceOK_getCurrentCommit {p : Cmd → Prop} (hp : p Cmd.revParseHead) :
    TraceOK p getCurrentCommit :=
  traceOK_bind (traceOK_exec hp) fun _ => traceOK_pure _

theorem traceOK_getShortCommit {p : Cmd → Prop} (hp : p Cmd.revParseShortHead) :
    TraceOK p getShortCommit :=
  traceOK_bind (traceOK_exec hp) fun _ => traceOK_pure _

theorem traceOK_hasLocalChanges {p : Cmd → Prop} (hp : p Cmd.statusPorcelain) :
    TraceOK p hasLocalChanges :=
  traceOK_bind (traceOK_exec hp) fun _ => traceOK_pure _

/-- Every command the inline check handler can ever execute satisfies `p`,
given that `p` holds of each command the source of the handler issues. -/
theorem checkInline_traceOK {p : Cmd → Prop} (ip : String) (cfg : Option String)
    (hver : p Cmd.gitVersion) (hwt : p Cmd.revParseIsInsideWorkTree)
    (hhead : p Cmd.revParseHead) (hshort : p Cmd.revParseShortHead)
    (hrm : p (Cmd.remoteRemove checkTempRemoteName))
    (hadd : ∀ url, p (Cmd.remoteAdd checkTempRemoteName url))
    (hfetch : p (Cmd.fetchMain checkTempRemoteName))
    (hrvm : p (Cmd.revParseRemoteMain checkTempRemoteName))
    (hrvs : p (Cmd.revParseShortRemoteMain checkTempRemoteName))
    (hanc : ∀ a b, p (Cmd.mergeBaseIsAncestor a b)) :
    TraceOK p (createCheckHandlerInline ip cfg) := by
  unfold createCheckHandlerInline
  simp only [GitM.bind_eq, GitM.pure_eq]
  apply traceOK_tryCatchM
  · apply traceOK_bind (traceOK_isGitAvailable hver)
    intro gitOk
    split
    · exact traceOK_pure _
    · apply traceOK_bind (traceOK_isGitRepo hwt)
      intro repoOk
      split
      · exact traceOK_pure _
      · apply traceOK_bind (traceOK_getCurrentCommit hhead)
        intro lv
        apply traceOK_bind (traceOK_getShortCommit hshort)
        intro lvs
        apply traceOK_tryCatchM
        · apply traceOK_bind (traceOK_tryIgnore (traceOK_exec hrm))
          intro u1
          apply traceOK_bind (traceOK_exec (hadd _))
          intro u2
          apply traceOK_bind (traceOK_exec hfetch)
          intro u3
          apply traceOK_bind (traceOK_exec hrvm)
          intro rv
          apply traceOK_bind (traceOK_exec hrvs)
          intro rvs
          apply traceOK_bind (traceOK_exec hrm)
          intro u4
          split
          · apply traceOK_bind (traceOK_tryCatchM
              (traceOK_bind (traceOK_exec (hanc _ _)) fun _ => traceOK_pure _)
              (fun _ => traceOK_pure _))
            intro ua
            exact traceOK_pure _
          · exact traceOK_bind (traceOK_pure false) fun ua => traceOK_pure _
        · intro fetchError
          apply traceOK_bind (traceOK_tryIgnore (traceOK_exec hrm))
          intro u5
          exact traceOK_pure _
  · intro e
    exact traceOK_pure _

/-- Every command the inline pull handler can ever execute satisfies `p`,
given that `p` holds of each command the source of the handler issues. -/
theorem pullInline_traceOK {p : Cmd → Prop} (ip : String) (cfg : Option String)
    (hver : p Cmd.gitVersion) (hwt : p Cmd.revParseIsInsideWorkTree)
    (hstatus : p Cmd.statusPorcelain)
    (hhead : p Cmd.revParseHead) (hshort : p Cmd.revParseShortHead)
    (hrm : p (Cmd.remoteRemove pullTempRemoteName))
    (hadd : ∀ url, p (Cmd.remoteAdd pullTempRemoteName url))
    (hfetch : p (Cmd.fetchMain pullTempRemoteName))
    (hbranch : p Cmd.revParseAbbrevRefHead)
    (hmerge : p (Cmd.mergeFFOnly pullTempRemoteName)) :
    TraceOK p (createPullHandlerInline ip cfg) := by
  unfold createPullHandlerInline
  simp only [GitM.bind_eq, GitM.pure_eq]
  apply traceOK_tryCatchM
  · apply traceOK_bind (traceOK_isGitAvailable hver)
    intro gitOk
    split
    · exact traceOK_pure _
    · apply traceOK_bind (traceOK_isGitRepo hwt)
      intro repoOk
      split
      · exact traceOK_pure _
      · apply traceOK_bind (traceOK_hasLocalChanges hstatus)
        intro dirty
        split
        · exact traceOK_pure _
        · apply traceOK_bind (traceOK_getCurrentCommit hhead)
          intro pv
          apply traceOK_bind (traceOK_getShortCommit hshort)
          intro pvs
          apply traceOK_tryCatchM
          · apply traceOK_bind (traceOK_tryIgnore (traceOK_exec hrm))
            intro u1
            apply traceOK_bind (traceOK_exec (hadd _))
            intro u2
            apply traceOK_bind (traceOK_exec hfetch)
            intro u3
            apply traceOK_bind (traceOK_exec hbranch)
            intro bo
            apply traceOK_bind (traceOK_exec hmerge)
            intro mo
            apply traceOK_bind (traceOK_exec hrm)
            intro u4
            apply traceOK_bind (traceOK_getCurrentCommit hhead)
            intro nv
            apply traceOK_bind (traceOK_getShortCommit hshort)
            intro nvs
            exact traceOK_pure _
          · intro pullError
            apply traceOK_bind (traceOK_tryIgnore (traceOK_exec hrm))
            intro u5
            split
            · exact traceOK_pure _
            · split
              · exact traceOK_pure _
              · exact traceOK_pure _
  · intro e
    exact traceOK_pure _

/-- C9: the inline check and pull handlers use the distinct fixed
temporary-remote names `automaker-update-check` and
`automaker-update-pull`: every remote add/remove command the check handler
can execute names the former, every one the pull handler can execute
names the latter, so a concurrent check and pull never add or remove the
same remote name. -/
theorem temp_remote_names_disjoint :
    checkTempRemoteName ≠ pullTempRemoteName ∧
    (∀ (ip : String) (cfg : Option String) (w : World) (c : Cmd),
      c ∈ ((createCheckHandlerInline ip cfg) w).2.2 →
      remoteName? c = none ∨ remoteName? c = some checkTempRemoteName) ∧
    (∀ (ip : String) (cfg : Option String) (w : World) (c : Cmd),
      c ∈ ((createPullHandlerInline ip cfg) w).2.2 →
      remoteName? c = none ∨ remoteName? c = some pullTempRemoteName) ∧
    (∀ (ip ip2 : String) (cfg cfg2 : Option String) (w w2 : World)
      (c c2 : Cmd) (n n2 : String),
      c ∈ ((createCheckHandlerInline ip cfg) w).2.2 →
      c2 ∈ ((createPullHandlerInline ip2 cfg2) w2).2.2 →
      remoteName? c = some n → remoteName? c2 = some n2 → n ≠ n2) := by
  have hck : ∀ (ip : String) (cfg : Option String),
      TraceOK (fun c => remoteName? c = none ∨
        remoteName? c = some checkTempRemoteName)
        (createCheckHandlerInline ip cfg) := by
    intro ip cfg
    exact checkInline_traceOK ip cfg (Or.inl rfl) (Or.inl rfl) (Or.inl rfl)
      (Or.inl rfl) (Or.inr rfl) (fun _ => Or.inr rfl) (Or.inl rfl) (Or.inl rfl)
      (Or.inl rfl) (fun _ _ => Or.inl rfl)
  have hpl : ∀ (ip : String) (cfg : Option String),
      TraceOK (fun c => remoteName? c = none ∨
        remoteName? c = some pullTempRemoteName)
        (createPullHandlerInline ip cfg) := by
    intro ip cfg
    exact pullInline_traceOK ip cfg (Or.inl rfl) (Or.inl rfl) (Or.inl rfl)
      (Or.inl rfl) (Or.inl rfl) (Or.inr rfl) (fun _ => Or.inr rfl) (Or.inl rfl)
      (Or.inl rfl) (Or.inl rfl)
  have hne : checkTempRemoteName ≠ pullTempRemoteName := by decide
  refine ⟨hne, fun ip cfg w c hc => hck ip cfg w c hc,
    fun ip cfg w c hc => hpl ip cfg w c hc, ?_⟩
  intro ip ip2 cfg cfg2 w w2 c c2 n n2 hc hc2 hn hn2
  rcases hck ip cfg w c hc with h | h
  · rw [hn] at h; exact Option.noConfusion h
  · rcases hpl ip2 cfg2 w2 c2 hc2 with h2 | h2
    · rw [hn2] at h2; exact Option.noConfusion h2
    · rw [hn] at h
      rw [hn2] at h2
      intro heq
      apply hne
      have e1 : n = checkTempRemoteName := Option.some_inj.mp h
      have e2 : n2 = pullTempRemoteName := Option.some_inj.mp h2
      rw [← e1, ← e2, heq]

/-- Witness for C9: the very first command of a check run touches no
remote name, as the second component of the theorem states at a concrete run. -/
theorem temp_remote_names_disjoint_witness :
    remoteName? Cmd.gitVersion = none ∨
    remoteName? Cmd.gitVersion = some checkTempRemoteName :=
  temp_remote_names_disjoint.2.1 "/app" none baseWorld Cmd.gitVersion
    (by decide)
